import Mathlib

/-!
A shallow embedding of the ChotaCop quiz backend (src/main.py) and proofs of
its specification properties.

Record stores are modelled as Lean lists of records; each handler is a pure
function from the store contents (plus the request payload and the values the
handler obtains from the clock / uuid generator, passed as explicit
parameters) to the new store contents and the HTTP response.  An
HTTPException is modelled as the error branch of an Except value.
-/

set_option maxHeartbeats 1000000

/-- A quiz submission record, mirroring the QuizSubmission model and the dict
stored in quiz_submissions.json.  The wire field named class is held in the
field named class_ (the source renames class_ to class at the storage
boundary; the stored value is the same). -/
structure QuizSubmission where
  email : String
  chapter : String
  name : String
  school : String
  class_ : String
  q1 : List Int
  q2 : List Int
  q3 : List Int
  q4 : List Int
  q5 : List Int
  q6 : List Int
  q7 : List Int
  q8 : List Int
  q9 : List Int
  q10 : List Int
  q11 : List Int
  q12 : List Int
  q13 : List Int
  c1 : Int
  c2 : Int
  c3 : Int
  c4 : Int
  c5 : Int
  created_at : String
deriving Repr, DecidableEq

/-- A chapter observation record stored in chapter_observations.json.  The
opaque structured data value is modelled as a String. -/
structure Observation where
  chapter : String
  data : String
  updated_at : String
deriving Repr, DecidableEq

/-- A user record stored in users.json. -/
structure User where
  email : String
  user_id : String
  chapter : String
  created_at : String
deriving Repr, DecidableEq

/-- A PDF record stored in pdf_files.json. -/
structure PdfRecord where
  filename : String
  content : String
  email : String
  uploaded_at : String
deriving Repr, DecidableEq

/-- One item of a bulk upload request (per-question sequences and scalar
fields only). -/
structure BulkItem where
  q1 : List Int
  q2 : List Int
  q3 : List Int
  q4 : List Int
  q5 : List Int
  q6 : List Int
  q7 : List Int
  q8 : List Int
  q9 : List Int
  q10 : List Int
  q11 : List Int
  q12 : List Int
  q13 : List Int
  c1 : Int
  c2 : Int
  c3 : Int
  c4 : Int
  c5 : Int
deriving Repr, DecidableEq

/-- Access to the q-th question field, modelling submission[f"q{q_num}"] for
q_num in 1..13. -/
def qList (s : QuizSubmission) : Nat → List Int
  | 1 => s.q1
  | 2 => s.q2
  | 3 => s.q3
  | 4 => s.q4
  | 5 => s.q5
  | 6 => s.q6
  | 7 => s.q7
  | 8 => s.q8
  | 9 => s.q9
  | 10 => s.q10
  | 11 => s.q11
  | 12 => s.q12
  | 13 => s.q13
  | _ => []

/-- Generic first-match search, modelling find_one(data_list, query) from
src/main.py lines 61-65 with the equality query given as a predicate. -/
def find_one (l : List α) (p : α → Bool) : Option α :=
  l.find? p

/-- The submissions whose chapter field equals the target, modelling the
list comprehension at src/main.py lines 411 and 456. -/
def chapterSubs (subs : List QuizSubmission) (c : String) : List QuizSubmission :=
  subs.filter (fun s => s.chapter == c)

/-- The first observation record for a chapter, modelling
find_one(observations, chapter) at src/main.py lines 414 and 457. -/
def findObs (obs : List Observation) (c : String) : Option Observation :=
  find_one obs (fun o => o.chapter == c)

/-- Per-ride tally of the aggregation: ones, zeros, and their sum, mirroring
the dict built at src/main.py lines 485-489. -/
structure RideStat where
  ones : Nat
  zeros : Nat
  total : Nat
deriving Repr, DecidableEq

/-- The ride_(r) entry for question q, modelling the two sum(...) counts at
src/main.py lines 480-483. -/
def rideStat (cs : List QuizSubmission) (q r : Nat) : RideStat :=
  let ones := cs.countP (fun s => decide (r < (qList s q).length) && ((qList s q).getD r 0 == 1))
  let zeros := cs.countP (fun s => decide (r < (qList s q).length) && ((qList s q).getD r 0 == 0))
  { ones := ones, zeros := zeros, total := ones + zeros }

/-- The rides dict of a question, keys ride_0 .. ride_6 (src/main.py lines
479-489). -/
def rides_list (cs : List QuizSubmission) (q : Nat) : List (String × RideStat) :=
  (List.range 7).map (fun r => ("ride_" ++ toString r, rideStat cs q r))

/-- Per-question statistics: total_submissions and the rides dict
(src/main.py lines 473-476). -/
structure QuestionStats where
  total_submissions : Nat
  rides : List (String × RideStat)
deriving Repr, DecidableEq

/-- The stats entry for question q (src/main.py lines 473-489). -/
def questionStats (cs : List QuizSubmission) (q : Nat) : QuestionStats :=
  { total_submissions := cs.length, rides := rides_list cs q }

/-- The question_stats dict, keys q1 .. q13 (src/main.py lines 471-491). -/
def question_stats_list (cs : List QuizSubmission) : List (String × QuestionStats) :=
  (List.range 13).map (fun i => ("q" ++ toString (i + 1), questionStats cs (i + 1)))

/-- The response of the single-chapter branch of /chapter-data (src/main.py
lines 459-499): fields chapter, total_submissions, question_stats,
observation. -/
structure ChapterData where
  chapter : String
  total_submissions : Nat
  question_stats : List (String × QuestionStats)
  observation : Option String
deriving Repr, DecidableEq

/-- The single-chapter aggregation (src/main.py lines 456-499): filter the
submissions by chapter, look up the observation, return the empty shape when
both are missing, else the per-question statistics. -/
def get_chapter_data (subs : List QuizSubmission) (obs : List Observation) (c : String) : ChapterData :=
  if (chapterSubs subs c).isEmpty && (findObs obs c).isNone then
    { chapter := c, total_submissions := 0, question_stats := [], observation := none }
  else
    { chapter := c
      total_submissions := (chapterSubs subs c).length
      question_stats := question_stats_list (chapterSubs subs c)
      observation := (findObs obs c).map (fun o => o.data) }

/-- The per-chapter value stored in all_chapter_data in the ALL_Chapter
branch (src/main.py lines 443-447): total_submissions, question_stats,
observation -- with no chapter field. -/
structure ChapterDataBody where
  total_submissions : Nat
  question_stats : List (String × QuestionStats)
  observation : Option String
deriving Repr, DecidableEq

/-- The value all_chapter_data[chapter_name] computed in the ALL_Chapter
branch (src/main.py lines 409-447). -/
def chapter_body (subs : List QuizSubmission) (obs : List Observation) (c : String) : ChapterDataBody :=
  { total_submissions := (chapterSubs subs c).length
    question_stats := question_stats_list (chapterSubs subs c)
    observation := (findObs obs c).map (fun o => o.data) }

/-- The sorted list of distinct chapter values appearing in submissions or
observations (src/main.py lines 405-406: set union, then sort). -/
def chapterList (subs : List QuizSubmission) (obs : List Observation) : List String :=
  List.insertionSort (· ≤ ·)
    ((subs.map (fun s => s.chapter) ++ obs.map (fun o => o.chapter)).dedup)

/-- The chapters mapping returned by the ALL_Chapter branch (src/main.py
lines 403-453), as an association list in key order. -/
def all_chapter_data (subs : List QuizSubmission) (obs : List Observation) : List (String × ChapterDataBody) :=
  (chapterList subs obs).map (fun c => (c, chapter_body subs obs c))

/-- Dict access result["question_stats"]["q" ++ q]["rides"]["ride_" ++ r] on
a single-chapter aggregation result. -/
def qsLookup (d : ChapterData) (q r : Nat) : Option RideStat :=
  match d.question_stats.lookup ("q" ++ toString q) with
  | none => none
  | some qs => qs.rides.lookup ("ride_" ++ toString r)

/-- The /check-mail handler core (src/main.py lines 240-245). -/
def check_email_exists (subs : List QuizSubmission) (email : String) : Bool :=
  (find_one subs (fun s => s.email == email)).isSome

/-- The /email-data handler core (src/main.py lines 248-253). -/
def get_data_by_email (subs : List QuizSubmission) (email : String) : List QuizSubmission :=
  subs.filter (fun s => s.email == email)

/-- C10: check-mail returns exists = true exactly when email-data returns a
non-empty list, both selecting submissions whose email equals the given
email. -/
theorem C10_check_mail_iff_email_data (subs : List QuizSubmission) (email : String) :
    check_email_exists subs email = true ↔ get_data_by_email subs email ≠ [] := by
  unfold check_email_exists get_data_by_email find_one
  rw [List.find?_isSome]
  constructor
  · rintro ⟨s, hs, hp⟩ hnil
    have : s ∈ subs.filter (fun s => s.email == email) := List.mem_filter.mpr ⟨hs, hp⟩
    rw [hnil] at this
    exact absurd this (List.not_mem_nil s)
  · intro hne
    rcases List.exists_mem_of_ne_nil _ hne with ⟨s, hs⟩
    rcases List.mem_filter.mp hs with ⟨hmem, hp⟩
    exact ⟨s, hmem, hp⟩

/-- C4: a chapter with no submissions and no observation record aggregates to
exactly the empty shape. -/
theorem C4_empty_chapter_shape (subs : List QuizSubmission) (obs : List Observation) (c : String)
    (hs : ∀ s ∈ subs, s.chapter ≠ c) (ho : ∀ o ∈ obs, o.chapter ≠ c) :
    get_chapter_data subs obs c =
      { chapter := c, total_submissions := 0, question_stats := [], observation := none } := by
  have hfilter : chapterSubs subs c = [] := by
    unfold chapterSubs
    apply List.filter_eq_nil_iff.mpr
    intro s hmem
    simpa using hs s hmem
  have hobs : findObs obs c = none := by
    unfold findObs find_one
    apply List.find?_eq_none.mpr
    intro o hmem
    simpa using ho o hmem
  unfold get_chapter_data
  rw [hfilter, hobs]
  rfl

/-- The guarded index test used by the source (length check plus getD access)
agrees with the get?-based description: the sequence has an entry at
position r and that entry equals v. -/
theorem guard_getD_eq_get? (l : List Int) (r : Nat) (v : Int) :
    (decide (r < l.length) && (l.getD r 0 == v)) = (l.get? r == some v) := by
  by_cases hlt : r < l.length
  · have hq : l.get? r = some l[r] := by
      rw [List.get?_eq_getElem?]
      exact List.getElem?_eq_getElem hlt
    have hD : l.getD r 0 = l[r] := by
      rw [List.getD_eq_getElem?_getD, List.getElem?_eq_getElem hlt]
      rfl
    rw [hq, hD]
    simp [hlt]
  · have hq : l.get? r = none := List.get?_eq_none.mpr (Nat.not_lt.mp hlt)
    rw [hq]
    simp [hlt]

/-- Spec-side count: submissions of the chapter whose q-th sequence has an
entry at position r equal to v.  Sequences shorter than r+1 never match. -/
def specCount (subs : List QuizSubmission) (c : String) (q r : Nat) (v : Int) : Nat :=
  (chapterSubs subs c).countP (fun s => (qList s q).get? r == some v)

/-- Spec-side count restricted to the submissions whose q-th sequence has
length greater than r. -/
def specCountLong (subs : List QuizSubmission) (c : String) (q r : Nat) (v : Int) : Nat :=
  ((chapterSubs subs c).filter (fun s => decide (r < (qList s q).length))).countP
    (fun s => (qList s q).get? r == some v)

theorem rideStat_ones (cs : List QuizSubmission) (q r : Nat) :
    (rideStat cs q r).ones = cs.countP (fun s => (qList s q).get? r == some 1) := by
  show cs.countP _ = _
  have h : (fun s : QuizSubmission => decide (r < (qList s q).length) && ((qList s q).getD r 0 == (1 : Int))) =
      (fun s : QuizSubmission => (qList s q).get? r == some 1) := by
    funext s; exact guard_getD_eq_get? _ _ _
  rw [h]

theorem rideStat_zeros (cs : List QuizSubmission) (q r : Nat) :
    (rideStat cs q r).zeros = cs.countP (fun s => (qList s q).get? r == some 0) := by
  show cs.countP _ = _
  have h : (fun s : QuizSubmission => decide (r < (qList s q).length) && ((qList s q).getD r 0 == (0 : Int))) =
      (fun s : QuizSubmission => (qList s q).get? r == some 0) := by
    funext s; exact guard_getD_eq_get? _ _ _
  rw [h]

theorem rideStat_total (cs : List QuizSubmission) (q r : Nat) :
    (rideStat cs q r).total = (rideStat cs q r).ones + (rideStat cs q r).zeros := rfl

/-- Restricting to long-enough sequences does not change the count:
submissions whose sequence is shorter than r+1 contribute to neither
tally. -/
theorem specCount_eq_long (subs : List QuizSubmission) (c : String) (q r : Nat) (v : Int) :
    specCount subs c q r v = specCountLong subs c q r v := by
  unfold specCount specCountLong
  rw [List.countP_filter]
  have h : (fun s : QuizSubmission => ((qList s q).get? r == some v) && decide (r < (qList s q).length)) =
      (fun s : QuizSubmission => (qList s q).get? r == some v) := by
    funext s
    cases hq : (qList s q).get? r with
    | none => simp
    | some a =>
      rcases List.get?_eq_some.mp hq with ⟨hlt, _⟩
      simp [hlt]
  rw [h]

theorem lookup_question_stats (cs : List QuizSubmission) (q : Nat) (h1 : 1 ≤ q) (h2 : q ≤ 13) :
    (question_stats_list cs).lookup ("q" ++ toString q) = some (questionStats cs q) := by
  interval_cases q <;> rfl

theorem lookup_rides (cs : List QuizSubmission) (q r : Nat) (hr : r ≤ 6) :
    (rides_list cs q).lookup ("ride_" ++ toString r) = some (rideStat cs q r) := by
  interval_cases r <;> rfl

/-- When the aggregation produced any question statistics, the result is the
statistics branch of the algorithm. -/
theorem get_chapter_data_nonempty (subs : List QuizSubmission) (obs : List Observation) (c : String)
    (h : (get_chapter_data subs obs c).question_stats ≠ []) :
    get_chapter_data subs obs c =
      { chapter := c
        total_submissions := (chapterSubs subs c).length
        question_stats := question_stats_list (chapterSubs subs c)
        observation := (findObs obs c).map (fun o => o.data) } := by
  by_cases hc : ((chapterSubs subs c).isEmpty && (findObs obs c).isNone) = true
  · exfalso
    apply h
    unfold get_chapter_data
    rw [if_pos hc]
  · unfold get_chapter_data
    rw [if_neg hc]

/-- Looking up question q and ride r in a nonempty aggregation result yields
the rideStat of the chapter's submissions. -/
theorem qsLookup_eq_rideStat (subs : List QuizSubmission) (obs : List Observation) (c : String)
    (q r : Nat) (h1 : 1 ≤ q) (h2 : q ≤ 13) (hr : r ≤ 6)
    (hne : (get_chapter_data subs obs c).question_stats ≠ []) :
    qsLookup (get_chapter_data subs obs c) q r = some (rideStat (chapterSubs subs c) q r) := by
  rw [get_chapter_data_nonempty subs obs c hne]
  unfold qsLookup
  show (match (question_stats_list (chapterSubs subs c)).lookup ("q" ++ toString q) with
        | none => none
        | some qs => qs.rides.lookup ("ride_" ++ toString r)) = _
  rw [lookup_question_stats _ q h1 h2]
  show (rides_list (chapterSubs subs c) q).lookup ("ride_" ++ toString r) = _
  exact lookup_rides _ q r hr

/-- The rideStat computed by the source equals the spec-side description via
entry-at-position counts. -/
theorem rideStat_eq_spec (subs : List QuizSubmission) (c : String) (q r : Nat) :
    rideStat (chapterSubs subs c) q r =
      { ones := specCount subs c q r 1
        zeros := specCount subs c q r 0
        total := specCount subs c q r 1 + specCount subs c q r 0 } := by
  have heta : rideStat (chapterSubs subs c) q r =
      ⟨(rideStat (chapterSubs subs c) q r).ones, (rideStat (chapterSubs subs c) q r).zeros,
        (rideStat (chapterSubs subs c) q r).total⟩ := rfl
  rw [heta, rideStat_total, rideStat_ones, rideStat_zeros]
  rfl

/-- C1: for every chapter, q in 1..13 and ride r in 0..6, the single-chapter
aggregation counts ones as the submissions of the chapter whose q-th sequence
has an entry at position r equal to 1, zeros likewise for 0, with total their
sum; submissions whose sequence is shorter than r+1 contribute to neither
count (restricting to long-enough sequences changes nothing). -/
theorem C1_single_chapter_ride_counts (subs : List QuizSubmission) (obs : List Observation)
    (c : String) (q r : Nat) (h1 : 1 ≤ q) (h2 : q ≤ 13) (hr : r ≤ 6)
    (hne : (get_chapter_data subs obs c).question_stats ≠ []) :
    qsLookup (get_chapter_data subs obs c) q r =
      some { ones := specCount subs c q r 1
             zeros := specCount subs c q r 0
             total := specCount subs c q r 1 + specCount subs c q r 0 } ∧
    specCount subs c q r 1 = specCountLong subs c q r 1 ∧
    specCount subs c q r 0 = specCountLong subs c q r 0 := by
  refine ⟨?_, specCount_eq_long _ _ _ _ _, specCount_eq_long _ _ _ _ _⟩
  rw [qsLookup_eq_rideStat subs obs c q r h1 h2 hr hne]
  exact congrArg some (rideStat_eq_spec subs c q r)

/-- Example submissions from the specification: chapter C1 with q1 sequences
[1, 0, 1] and [1, 1]. -/
def baseSub : QuizSubmission :=
  { email := "", chapter := "", name := "", school := "", class_ := ""
    q1 := [], q2 := [], q3 := [], q4 := [], q5 := [], q6 := [], q7 := []
    q8 := [], q9 := [], q10 := [], q11 := [], q12 := [], q13 := []
    c1 := 0, c2 := 0, c3 := 0, c4 := 0, c5 := 0, created_at := "" }

def exSub1 : QuizSubmission :=
  { baseSub with email := "a@x.com", chapter := "C1", q1 := [1, 0, 1] }

def exSub2 : QuizSubmission :=
  { baseSub with email := "b@x.com", chapter := "C1", q1 := [1, 1] }

def exSubs : List QuizSubmission := [exSub1, exSub2]

/-- Witness for C1 at the specification's example: submissions for chapter C1
with q1 = [1,0,1] and [1,1] give q1/ride_0 stats ones 2, zeros 0, total 2 and
q1/ride_2 stats ones 1, zeros 0, total 1. -/
theorem C1_single_chapter_ride_counts_witness :
    (1 ≤ 1 ∧ (1 : Nat) ≤ 13 ∧ (0 : Nat) ≤ 6 ∧ (2 : Nat) ≤ 6 ∧
      (get_chapter_data exSubs [] "C1").question_stats ≠ []) ∧
    qsLookup (get_chapter_data exSubs [] "C1") 1 0 = some ⟨2, 0, 2⟩ ∧
    qsLookup (get_chapter_data exSubs [] "C1") 1 2 = some ⟨1, 0, 1⟩ := by
  refine ⟨⟨by decide, by decide, by decide, by decide, by decide⟩, ?_, ?_⟩
  · rw [(C1_single_chapter_ride_counts exSubs [] "C1" 1 0 (by decide) (by decide) (by decide)
      (by decide)).1]
    decide
  · rw [(C1_single_chapter_ride_counts exSubs [] "C1" 1 2 (by decide) (by decide) (by decide)
      (by decide)).1]
    decide

/-- Counts of two disjoint predicates add up to the count of their
disjunction. -/
theorem countP_add_of_disjoint (l : List α) (p q : α → Bool)
    (h : ∀ a ∈ l, ¬(p a = true ∧ q a = true)) :
    l.countP p + l.countP q = l.countP (fun a => p a || q a) := by
  induction l with
  | nil => simp
  | cons a t ih =>
    have ht : ∀ x ∈ t, ¬(p x = true ∧ q x = true) := fun x hx => h x (List.mem_cons_of_mem _ hx)
    have ha := h a (List.mem_cons_self _ _)
    by_cases hp : p a = true <;> by_cases hq : q a = true
    · exact absurd ⟨hp, hq⟩ ha
    all_goals simp [List.countP_cons, hp, hq, ← ih ht] <;> omega

/-- C2: for every question/ride pair in the aggregation result, ones + zeros
equals total, total is at most the chapter's total_submissions, and equality
forces every submission of the chapter to have a q-th sequence longer than
the ride index. -/
theorem C2_ride_invariant (subs : List QuizSubmission) (obs : List Observation) (c : String)
    (q r : Nat) (rs : RideStat) (h1 : 1 ≤ q) (h2 : q ≤ 13) (hr : r ≤ 6)
    (hlk : qsLookup (get_chapter_data subs obs c) q r = some rs) :
    rs.ones + rs.zeros = rs.total ∧
    rs.total ≤ (get_chapter_data subs obs c).total_submissions ∧
    (rs.total = (get_chapter_data subs obs c).total_submissions →
      ∀ s ∈ chapterSubs subs c, r < (qList s q).length) := by
  have hne : (get_chapter_data subs obs c).question_stats ≠ [] := by
    intro hemp
    unfold qsLookup at hlk
    rw [hemp] at hlk
    simp [List.lookup] at hlk
  have hrs : rs = rideStat (chapterSubs subs c) q r := by
    have := (qsLookup_eq_rideStat subs obs c q r h1 h2 hr hne).symm.trans hlk
    exact (Option.some.injEq _ _ ▸ this).symm
  have htot : (get_chapter_data subs obs c).total_submissions = (chapterSubs subs c).length := by
    rw [get_chapter_data_nonempty subs obs c hne]
  subst hrs
  have hdisj : ∀ s ∈ chapterSubs subs c,
      ¬((decide (r < (qList s q).length) && ((qList s q).getD r 0 == (1 : Int))) = true ∧
        (decide (r < (qList s q).length) && ((qList s q).getD r 0 == (0 : Int))) = true) := by
    intro s _ ⟨hp, hq⟩
    have h1v : (qList s q).getD r 0 = 1 := eq_of_beq (Bool.and_eq_true_iff.mp hp).2
    have h0v : (qList s q).getD r 0 = 0 := eq_of_beq (Bool.and_eq_true_iff.mp hq).2
    rw [h1v] at h0v
    exact absurd h0v (by decide)
  have hadd := countP_add_of_disjoint (chapterSubs subs c) _ _ hdisj
  have hmono : (chapterSubs subs c).countP
        (fun s => (decide (r < (qList s q).length) && ((qList s q).getD r 0 == (1 : Int))) ||
          (decide (r < (qList s q).length) && ((qList s q).getD r 0 == (0 : Int)))) ≤
      (chapterSubs subs c).countP (fun s => decide (r < (qList s q).length)) := by
    apply List.countP_mono_left
    intro s _ hor
    rcases Bool.or_eq_true_iff.mp hor with hcase | hcase
    · exact (Bool.and_eq_true_iff.mp hcase).1
    · exact (Bool.and_eq_true_iff.mp hcase).1
  have hlen : (chapterSubs subs c).countP (fun s => decide (r < (qList s q).length)) ≤
      (chapterSubs subs c).length := List.countP_le_length _
  refine ⟨rfl, ?_, ?_⟩
  · rw [htot]
    show (chapterSubs subs c).countP _ + (chapterSubs subs c).countP _ ≤ _
    rw [hadd]
    exact le_trans hmono hlen
  · intro heq s hs
    rw [htot] at heq
    have heq2 : (chapterSubs subs c).countP _ + (chapterSubs subs c).countP _ =
        (chapterSubs subs c).length := heq
    rw [hadd] at heq2
    have hall : (chapterSubs subs c).countP (fun s => decide (r < (qList s q).length)) =
        (chapterSubs subs c).length := le_antisymm hlen (heq2 ▸ hmono)
    have := List.countP_eq_length.mp hall s hs
    exact of_decide_eq_true this

/-- Witness for C2 at the example submissions: the q1/ride_2 stats satisfy
the invariant. -/
theorem C2_ride_invariant_witness :
    (1 ≤ 1 ∧ (1 : Nat) ≤ 13 ∧ (2 : Nat) ≤ 6 ∧
      qsLookup (get_chapter_data exSubs [] "C1") 1 2 = some ⟨1, 0, 1⟩) ∧
    (RideStat.ones ⟨1, 0, 1⟩ + RideStat.zeros ⟨1, 0, 1⟩ = RideStat.total ⟨1, 0, 1⟩ ∧
      RideStat.total ⟨1, 0, 1⟩ ≤ (get_chapter_data exSubs [] "C1").total_submissions) := by
  have h := C2_ride_invariant exSubs [] "C1" 1 2 ⟨1, 0, 1⟩ (by decide) (by decide) (by decide)
    (by decide)
  exact ⟨⟨by decide, by decide, by decide, by decide⟩, h.1, h.2.1⟩

/-- Witness for C4: chapter ZZ has no submissions among the examples and no
observation, and aggregates to the empty shape. -/
theorem C4_empty_chapter_shape_witness :
    ((∀ s ∈ exSubs, s.chapter ≠ "ZZ") ∧ (∀ o ∈ ([] : List Observation), o.chapter ≠ "ZZ")) ∧
    get_chapter_data exSubs [] "ZZ" =
      { chapter := "ZZ", total_submissions := 0, question_stats := [], observation := none } :=
  ⟨⟨by decide, by decide⟩, C4_empty_chapter_shape exSubs [] "ZZ" (by decide) (by decide)⟩

/-- Witness for C10 at the example submissions. -/
theorem C10_check_mail_iff_email_data_witness :
    check_email_exists exSubs "a@x.com" = true ↔ get_data_by_email exSubs "a@x.com" ≠ [] :=
  C10_check_mail_iff_email_data exSubs "a@x.com"

/-- Projection dropping the chapter field of a single-chapter aggregation
result, for comparison with the ALL_Chapter per-chapter values. -/
def ChapterData.body (d : ChapterData) : ChapterDataBody :=
  { total_submissions := d.total_submissions
    question_stats := d.question_stats
    observation := d.observation }

/-- JSON values, used to compare the serialized response dicts of the two
aggregation branches. -/
inductive J where
  | n : Nat → J
  | s : String → J
  | null : J
  | obj : List (String × J) → J

/-- JSON rendering of a ride tally (the dict of src/main.py lines 485-489). -/
def RideStat.toJ (x : RideStat) : J :=
  J.obj [("ones", J.n x.ones), ("zeros", J.n x.zeros), ("total", J.n x.total)]

/-- JSON rendering of per-question statistics. -/
def QuestionStats.toJ (x : QuestionStats) : J :=
  J.obj [("total_submissions", J.n x.total_submissions),
    ("rides", J.obj (x.rides.map (fun p => (p.1, p.2.toJ))))]

/-- JSON rendering of the observation field: the data value or null. -/
def obsJ : Option String → J
  | none => J.null
  | some d => J.s d

/-- JSON rendering of an ALL_Chapter per-chapter value (src/main.py lines
443-447): three keys, no chapter key. -/
def ChapterDataBody.toJ (x : ChapterDataBody) : J :=
  J.obj [("total_submissions", J.n x.total_submissions),
    ("question_stats", J.obj (x.question_stats.map (fun p => (p.1, p.2.toJ)))),
    ("observation", obsJ x.observation)]

/-- JSON rendering of a single-chapter aggregation result (src/main.py lines
494-499): four keys, chapter included. -/
def ChapterData.toJ (x : ChapterData) : J :=
  J.obj [("chapter", J.s x.chapter),
    ("total_submissions", J.n x.total_submissions),
    ("question_stats", J.obj (x.question_stats.map (fun p => (p.1, p.2.toJ)))),
    ("observation", obsJ x.observation)]

/-- The key list of a JSON object. -/
def J.topKeys : J → List String
  | .obj l => l.map Prod.fst
  | _ => []

theorem all_chapter_keys (subs : List QuizSubmission) (obs : List Observation) :
    (all_chapter_data subs obs).map Prod.fst = chapterList subs obs := by
  unfold all_chapter_data
  rw [List.map_map]
  have hcomp : (Prod.fst ∘ fun c : String => (c, chapter_body subs obs c)) = id := rfl
  rw [hcomp, List.map_id]

theorem chapterList_sorted (subs : List QuizSubmission) (obs : List Observation) :
    (chapterList subs obs).Sorted (· < ·) := by
  have hle : (chapterList subs obs).Sorted (· ≤ ·) := List.sorted_insertionSort _ _
  have hnd : (chapterList subs obs).Nodup :=
    ((List.perm_insertionSort _ _).symm).nodup (List.nodup_dedup _)
  exact hle.lt_of_le hnd

theorem chapterList_mem (subs : List QuizSubmission) (obs : List Observation) (c : String) :
    c ∈ chapterList subs obs ↔ (∃ s ∈ subs, s.chapter = c) ∨ (∃ o ∈ obs, o.chapter = c) := by
  unfold chapterList
  rw [(List.perm_insertionSort _ _).mem_iff, List.mem_dedup, List.mem_append]
  simp [List.mem_map]

/-- For a chapter present in submissions or observations, the ALL_Chapter
per-chapter value coincides with the single-chapter result minus its chapter
field. -/
theorem chapter_body_eq_single (subs : List QuizSubmission) (obs : List Observation) (c : String)
    (hc : (∃ s ∈ subs, s.chapter = c) ∨ (∃ o ∈ obs, o.chapter = c)) :
    chapter_body subs obs c = ChapterData.body (get_chapter_data subs obs c) := by
  have hcond : ((chapterSubs subs c).isEmpty && (findObs obs c).isNone) = false := by
    rcases hc with ⟨s, hs, hcs⟩ | ⟨o, ho, hco⟩
    · have hmem : s ∈ chapterSubs subs c := List.mem_filter.mpr ⟨hs, by simp [hcs]⟩
      have hemp : (chapterSubs subs c).isEmpty = false := by
        cases hfl : chapterSubs subs c with
        | nil => rw [hfl] at hmem; exact absurd hmem (List.not_mem_nil _)
        | cons a t => rfl
      simp [hemp]
    · have hsome : (findObs obs c).isSome := by
        unfold findObs find_one
        rw [List.find?_isSome]
        exact ⟨o, ho, by simp [hco]⟩
      have hnone : (findObs obs c).isNone = false := by
        cases hopt : findObs obs c with
        | none => rw [hopt] at hsome; simp at hsome
        | some x => rfl
      simp [hnone]
  unfold get_chapter_data
  rw [if_neg (by simp [hcond])]
  rfl

/-- C3 counterexample: for a concrete submission set with one chapter, the
ALL_Chapter mapping value does not equal the single-chapter aggregation
result: their serialized dicts differ (the per-chapter value carries no
chapter key). -/
theorem C3_all_chapter_counterexample :
    ¬ ((all_chapter_data exSubs []).map (fun p => (p.1, p.2.toJ)) =
      (chapterList exSubs []).map (fun c => (c, (get_chapter_data exSubs [] c).toJ))) := by
  intro h
  have hL : (all_chapter_data exSubs []).map (fun p => (p.1, p.2.toJ)) =
      [("C1", (chapter_body exSubs [] "C1").toJ)] := rfl
  have hR : (chapterList exSubs []).map (fun c => (c, (get_chapter_data exSubs [] c).toJ)) =
      [("C1", (get_chapter_data exSubs [] "C1").toJ)] := rfl
  rw [hL, hR] at h
  have h1 : (chapter_body exSubs [] "C1").toJ = (get_chapter_data exSubs [] "C1").toJ :=
    congrArg Prod.snd (List.head_eq_of_cons_eq h)
  have h2 := congrArg J.topKeys h1
  rw [show J.topKeys ((chapter_body exSubs [] "C1").toJ) =
      ["total_submissions", "question_stats", "observation"] from rfl] at h2
  rw [show J.topKeys ((get_chapter_data exSubs [] "C1").toJ) =
      ["chapter", "total_submissions", "question_stats", "observation"] from rfl] at h2
  exact absurd h2 (by decide)

/-- C3 amended: the ALL_Chapter aggregation has a key for exactly the
distinct chapter values appearing in submissions or observations, in
lexicographic order, and every mapped value equals the single-chapter
aggregation result with its chapter field removed. -/
theorem C3_all_chapter_amended (subs : List QuizSubmission) (obs : List Observation) :
    ((all_chapter_data subs obs).map Prod.fst).Sorted (· < ·) ∧
    (∀ c : String, c ∈ (all_chapter_data subs obs).map Prod.fst ↔
      (∃ s ∈ subs, s.chapter = c) ∨ (∃ o ∈ obs, o.chapter = c)) ∧
    (∀ c body, (c, body) ∈ all_chapter_data subs obs →
      body = ChapterData.body (get_chapter_data subs obs c)) := by
  refine ⟨?_, ?_, ?_⟩
  · rw [all_chapter_keys]
    exact chapterList_sorted subs obs
  · intro c
    rw [all_chapter_keys]
    exact chapterList_mem subs obs c
  · intro c body hmem
    unfold all_chapter_data at hmem
    rcases List.mem_map.mp hmem with ⟨c2, hc2, heq⟩
    have hc : c2 = c := congrArg Prod.fst heq
    subst hc
    have hbody : chapter_body subs obs c2 = body := congrArg Prod.snd heq
    rw [← hbody]
    exact chapter_body_eq_single subs obs c2 ((chapterList_mem subs obs c2).mp hc2)

/-- Witness for the amended C3 at the example submissions. -/
theorem C3_all_chapter_amended_witness :
    ((all_chapter_data exSubs []).map Prod.fst).Sorted (· < ·) ∧
    ("C1" ∈ (all_chapter_data exSubs []).map Prod.fst ↔
      (∃ s ∈ exSubs, s.chapter = "C1") ∨ (∃ o ∈ ([] : List Observation), o.chapter = "C1")) ∧
    chapter_body exSubs [] "C1" = ChapterData.body (get_chapter_data exSubs [] "C1") := by
  have h := C3_all_chapter_amended exSubs []
  refine ⟨h.1, h.2.1 "C1", h.2.2 "C1" (chapter_body exSubs [] "C1") ?_⟩
  exact List.mem_singleton.mpr rfl

/-- update_one on the submission store with an email query (src/main.py lines
67-72 as called from line 229): the first matching record is merged with the
update dict; since the upload dict carries every field, the record is
replaced. -/
def update_one_submission : List QuizSubmission → String → QuizSubmission → List QuizSubmission
  | [], _, _ => []
  | s :: t, e, q => if s.email == e then q :: t else s :: update_one_submission t e q

/-- The /upload handler core (src/main.py lines 219-237): stamp created_at
with the write-time clock value, then overwrite the first record with the
same email, or append as new. -/
def upload_quiz (subs : List QuizSubmission) (data : QuizSubmission) (now : String) : List QuizSubmission :=
  let quiz := { data with created_at := now }
  if (find_one subs (fun s => s.email == quiz.email)).isSome then
    update_one_submission subs quiz.email quiz
  else
    subs ++ [quiz]

theorem update_one_submission_spec (l : List QuizSubmission) (q : QuizSubmission)
    (h : l.countP (fun s => s.email == q.email) = 1) :
    (update_one_submission l q.email q).countP (fun s => s.email == q.email) = 1 ∧
    ∀ s ∈ update_one_submission l q.email q, s.email = q.email → s = q := by
  induction l with
  | nil => simp at h
  | cons a t ih =>
    by_cases ha : (a.email == q.email) = true
    · have hupd : update_one_submission (a :: t) q.email q = q :: t := by
        unfold update_one_submission
        rw [if_pos ha]
      have hcount : t.countP (fun s => s.email == q.email) = 0 := by
        rw [List.countP_cons] at h
        simp only [ha, if_true] at h
        omega
      rw [hupd]
      constructor
      · rw [List.countP_cons, hcount]
        simp
      · intro s hs hse
        rcases List.mem_cons.mp hs with rfl | hst
        · rfl
        · exact absurd (by simp [hse]) (List.countP_eq_zero.mp hcount s hst)
    · have hupd : update_one_submission (a :: t) q.email q =
          a :: update_one_submission t q.email q := by
        simp only [update_one_submission]
        rw [if_neg ha]
      have hcount : t.countP (fun s => s.email == q.email) = 1 := by
        rw [List.countP_cons, if_neg ha] at h
        omega
      rcases ih hcount with ⟨ihc, ihm⟩
      rw [hupd]
      constructor
      · rw [List.countP_cons, ihc]
        simp [ha]
      · intro s hs hse
        rcases List.mem_cons.mp hs with rfl | hst
        · exact absurd (by simp [hse]) ha
        · exact ihm s hst hse

/-- One upload into a store holding at most one record for the email leaves
exactly one record for the email, namely the stamped payload. -/
theorem upload_quiz_spec (l : List QuizSubmission) (p : QuizSubmission) (t : String)
    (h : l.countP (fun s => s.email == p.email) ≤ 1) :
    (upload_quiz l p t).countP (fun s => s.email == p.email) = 1 ∧
    ∀ s ∈ upload_quiz l p t, s.email = p.email → s = { p with created_at := t } := by
  rcases Nat.le_one_iff_eq_zero_or_eq_one.mp h with hc | hc
  · have hfind : (find_one l (fun s => s.email == p.email)).isSome = false := by
      unfold find_one
      cases hfq : l.find? (fun s => s.email == p.email) with
      | none => rfl
      | some x =>
        have hx := List.find?_some hfq
        have hmem := List.mem_of_find?_eq_some hfq
        exact absurd (List.countP_eq_zero.mp hc x hmem) (by simp [hx])
    have hupd : upload_quiz l p t = l ++ [{ p with created_at := t }] := by
      unfold upload_quiz
      rw [if_neg (by simp [hfind])]
    rw [hupd]
    constructor
    · rw [List.countP_append, hc]
      simp
    · intro s hs hse
      rcases List.mem_append.mp hs with hsl | hsr
      · exact absurd (by simp [hse]) (List.countP_eq_zero.mp hc s hsl)
      · simpa using hsr
  · have hfind : (find_one l (fun s => s.email == p.email)).isSome = true := by
      unfold find_one
      rw [List.find?_isSome]
      exact List.countP_pos_iff.mp (by omega)
    have hupd : upload_quiz l p t = update_one_submission l p.email { p with created_at := t } := by
      unfold upload_quiz
      rw [if_pos (by simpa using hfind)]
    rw [hupd]
    exact update_one_submission_spec l { p with created_at := t } hc

/-- Submissions with a duplicated email, reachable only outside the handler's
own writes, used to refute the unconditional form of the replace claim. -/
def dupA : QuizSubmission := { baseSub with email := "dup@x.com", chapter := "C1" }

def dupB : QuizSubmission := { baseSub with email := "dup@x.com", chapter := "C2" }

/-- C5 counterexample: starting from a submission set that already holds two
records with the email, two uploads with that email leave two records with
the email, not exactly one. -/
theorem C5_upload_twice_counterexample :
    (upload_quiz (upload_quiz [dupA, dupB] dupA "t1") dupA "t2").countP
      (fun s => s.email == dupA.email) = 2 := by decide

/-- C5 amended: for every submission set holding at most one record with the
email, after two uploads with the same email exactly one record with that
email exists, it holds the second payload's values, and its created_at is
the second write's timestamp. -/
theorem C5_upload_twice_amended (subs : List QuizSubmission) (p1 p2 : QuizSubmission)
    (t1 t2 : String) (he : p1.email = p2.email)
    (hcount : subs.countP (fun s => s.email == p2.email) ≤ 1) :
    (upload_quiz (upload_quiz subs p1 t1) p2 t2).countP (fun s => s.email == p2.email) = 1 ∧
    ∀ s ∈ upload_quiz (upload_quiz subs p1 t1) p2 t2, s.email = p2.email →
      s = { p2 with created_at := t2 } := by
  have hpred : (fun s : QuizSubmission => s.email == p1.email) =
      (fun s : QuizSubmission => s.email == p2.email) := by rw [he]
  have h1 := upload_quiz_spec subs p1 t1 (by rw [hpred]; exact hcount)
  have h2 : (upload_quiz subs p1 t1).countP (fun s => s.email == p2.email) ≤ 1 := by
    rw [← hpred]
    exact le_of_eq h1.1
  exact upload_quiz_spec (upload_quiz subs p1 t1) p2 t2 h2

/-- Witness for the amended C5: uploading twice with the same fresh email
into the example set leaves exactly one record with that email. -/
theorem C5_upload_twice_amended_witness :
    (QuizSubmission.email dupA = QuizSubmission.email dupB ∧
      exSubs.countP (fun s => s.email == dupB.email) ≤ 1) ∧
    (upload_quiz (upload_quiz exSubs dupA "t1") dupB "t2").countP
      (fun s => s.email == dupB.email) = 1 :=
  ⟨⟨by decide, by decide⟩,
    (C5_upload_twice_amended exSubs dupA dupB "t1" "t2" (by decide) (by decide)).1⟩

/-- The /signup handler core (src/main.py lines 184-202): reject when the
email or the chapter is already present, else append a new user built from
the request, the fresh identifier and the write-time clock value. -/
def signup (users : List User) (email chapter_name uid now : String) :
    List User × Except String User :=
  if (find_one users (fun u => u.email == email)).isSome then
    (users, Except.error "Email already registered")
  else if (find_one users (fun u => u.chapter == chapter_name)).isSome then
    (users, Except.error "Chapter already registered")
  else
    (users ++ [{ email := email, user_id := uid, chapter := chapter_name, created_at := now }],
      Except.ok { email := email, user_id := uid, chapter := chapter_name, created_at := now })

/-- C6: signup fails exactly when the email or the chapter is already taken,
failure leaves the user set unchanged, success appends exactly the new user
and returns it, and after a success the same signup fails and changes
nothing. -/
theorem C6_signup_conflict (users : List User) (email chapter_name uid now : String) :
    ((signup users email chapter_name uid now).2.isOk = false ↔
      (∃ u ∈ users, u.email = email) ∨ (∃ u ∈ users, u.chapter = chapter_name)) ∧
    ((signup users email chapter_name uid now).2.isOk = false →
      (signup users email chapter_name uid now).1 = users) ∧
    ((signup users email chapter_name uid now).2.isOk = true →
      (signup users email chapter_name uid now).1 =
        users ++ [{ email := email, user_id := uid, chapter := chapter_name, created_at := now }] ∧
      (signup users email chapter_name uid now).2 =
        Except.ok { email := email, user_id := uid, chapter := chapter_name, created_at := now }) ∧
    ∀ uid2 now2, (signup users email chapter_name uid now).2.isOk = true →
      (signup (signup users email chapter_name uid now).1 email chapter_name uid2 now2).2.isOk = false ∧
      (signup (signup users email chapter_name uid now).1 email chapter_name uid2 now2).1 =
        (signup users email chapter_name uid now).1 := by
  by_cases he : (find_one users (fun u => u.email == email)).isSome = true
  · have hsig : signup users email chapter_name uid now =
        (users, Except.error "Email already registered") := by
      unfold signup
      rw [if_pos he]
    rw [hsig]
    refine ⟨⟨fun _ => ?_, fun _ => rfl⟩, fun _ => rfl, fun hok => Bool.noConfusion hok,
      fun uid2 now2 hok => Bool.noConfusion hok⟩
    left
    rcases List.find?_isSome.mp he with ⟨u, hu, hp⟩
    exact ⟨u, hu, eq_of_beq hp⟩
  · by_cases hc : (find_one users (fun u => u.chapter == chapter_name)).isSome = true
    · have hsig : signup users email chapter_name uid now =
          (users, Except.error "Chapter already registered") := by
        unfold signup
        rw [if_neg he, if_pos hc]
      rw [hsig]
      refine ⟨⟨fun _ => ?_, fun _ => rfl⟩, fun _ => rfl, fun hok => Bool.noConfusion hok,
        fun uid2 now2 hok => Bool.noConfusion hok⟩
      right
      rcases List.find?_isSome.mp hc with ⟨u, hu, hp⟩
      exact ⟨u, hu, eq_of_beq hp⟩
    · have hsig : signup users email chapter_name uid now =
          (users ++ [{ email := email, user_id := uid, chapter := chapter_name, created_at := now }],
            Except.ok { email := email, user_id := uid, chapter := chapter_name, created_at := now }) := by
        unfold signup
        rw [if_neg he, if_neg hc]
      rw [hsig]
      refine ⟨⟨fun hfalse => Bool.noConfusion hfalse, fun hor => ?_⟩,
        fun hfalse => Bool.noConfusion hfalse, fun _ => ⟨rfl, rfl⟩, fun uid2 now2 _ => ?_⟩
      · exfalso
        rcases hor with ⟨u, hu, hue⟩ | ⟨u, hu, huc⟩
        · exact he (List.find?_isSome.mpr ⟨u, hu, by simp [hue]⟩)
        · exact hc (List.find?_isSome.mpr ⟨u, hu, by simp [huc]⟩)
      · have he2 : (find_one
            (users ++ [{ email := email, user_id := uid, chapter := chapter_name, created_at := now }])
            (fun u => u.email == email)).isSome = true := by
          apply List.find?_isSome.mpr
          exact ⟨{ email := email, user_id := uid, chapter := chapter_name, created_at := now },
            List.mem_append_right _ (List.mem_singleton.mpr rfl), by simp⟩
        have hsig2 : signup
            (users ++ [{ email := email, user_id := uid, chapter := chapter_name, created_at := now }])
            email chapter_name uid2 now2 =
            (users ++ [{ email := email, user_id := uid, chapter := chapter_name, created_at := now }],
              Except.error "Email already registered") := by
          unfold signup
          rw [if_pos he2]
        rw [hsig2]
        exact ⟨rfl, rfl⟩

/-- Witness for C6: signing up on an empty user set succeeds, and repeating
it fails. -/
theorem C6_signup_conflict_witness :
    ((signup [] "a@x.com" "NorthChap" "uid1" "t1").2.isOk = false ↔
      (∃ u ∈ ([] : List User), u.email = "a@x.com") ∨
        (∃ u ∈ ([] : List User), u.chapter = "NorthChap")) ∧
    (signup (signup [] "a@x.com" "NorthChap" "uid1" "t1").1 "a@x.com" "NorthChap" "uid2" "t2").2.isOk
      = false := by
  have h := C6_signup_conflict [] "a@x.com" "NorthChap" "uid1" "t1"
  exact ⟨h.1, (h.2.2.2 "uid2" "t2" (by decide)).1⟩

/-- update_one on the observation store with a chapter query (src/main.py
lines 67-72 as called from line 366): the first matching record gets its
data and updated_at overwritten. -/
def update_one_observation : List Observation → String → String → String → List Observation
  | [], _, _, _ => []
  | o :: t, c, d, now =>
    if o.chapter == c then { o with data := d, updated_at := now } :: t
    else o :: update_one_observation t c d now

/-- The /update-observation handler core (src/main.py lines 353-380).  The
request body fields are Option values (absent = none); Python falsiness of
the present values (not chapter / not data) is modelled by string
emptiness. -/
def update_observation (observations : List Observation) (chapter data : Option String)
    (now : String) : List Observation × Except String String :=
  match chapter, data with
  | some c, some d =>
    if c.isEmpty || d.isEmpty then
      (observations, Except.error "Missing \x27chapter\x27 or \x27data\x27")
    else if (find_one observations (fun o => o.chapter == c)).isSome then
      (update_one_observation observations c d now, Except.ok "Observation data added or updated")
    else
      (observations ++ [{ chapter := c, data := d, updated_at := now }],
        Except.ok "Observation data added or updated")
  | _, _ => (observations, Except.error "Missing \x27chapter\x27 or \x27data\x27")

/-- When a matching observation exists, update_one_observation overwrites
exactly the first match and leaves the rest of the store unchanged. -/
theorem update_one_observation_spec (l : List Observation) (c d now : String)
    (h : ∃ o ∈ l, o.chapter = c) :
    ∃ pre x post, l = pre ++ x :: post ∧ (∀ o ∈ pre, o.chapter ≠ c) ∧ x.chapter = c ∧
      update_one_observation l c d now =
        pre ++ { chapter := c, data := d, updated_at := now } :: post := by
  induction l with
  | nil =>
    rcases h with ⟨o, ho, _⟩
    exact absurd ho (List.not_mem_nil _)
  | cons a t ih =>
    by_cases ha : (a.chapter == c) = true
    · refine ⟨[], a, t, rfl, by simp, eq_of_beq ha, ?_⟩
      simp only [update_one_observation]
      rw [if_pos ha]
      have hrec : ({ a with data := d, updated_at := now } : Observation) =
          { chapter := c, data := d, updated_at := now } := by
        have hac : a.chapter = c := eq_of_beq ha
        cases a
        simp only at hac
        rw [hac]
      rw [hrec]
      rfl
    · have hnot : ∃ o ∈ t, o.chapter = c := by
        rcases h with ⟨o, ho, hoc⟩
        rcases List.mem_cons.mp ho with rfl | hot
        · exact absurd (by simp [hoc]) ha
        · exact ⟨o, hot, hoc⟩
      rcases ih hnot with ⟨pre, x, post, hl, hpre, hxc, hupd⟩
      refine ⟨a :: pre, x, post, by rw [hl]; rfl, ?_, hxc, ?_⟩
      · intro o ho
        rcases List.mem_cons.mp ho with rfl | hop
        · intro hoc
          exact ha (by simp [hoc])
        · exact hpre o hop
      · simp only [update_one_observation]
        rw [if_neg ha, hupd]
        rfl

/-- For present nonempty fields the handler reaches the upsert branches. -/
theorem update_observation_some (obs : List Observation) (c d now : String)
    (hce : c.isEmpty = false) (hde : d.isEmpty = false) :
    update_observation obs (some c) (some d) now =
      if (find_one obs (fun o => o.chapter == c)).isSome = true then
        (update_one_observation obs c d now, Except.ok "Observation data added or updated")
      else
        (obs ++ [{ chapter := c, data := d, updated_at := now }],
          Except.ok "Observation data added or updated") := by
  simp only [update_observation]
  rw [if_neg (by simp [hce, hde])]

/-- C8 counterexample: a request whose chapter field is present but empty is
rejected with the missing-field error, refuting the absent-iff reading. -/
theorem C8_update_observation_counterexample :
    (some "" ≠ (none : Option String)) ∧ (some "x" ≠ (none : Option String)) ∧
    (update_observation [] (some "") (some "x") "t0").2 =
      Except.error "Missing \x27chapter\x27 or \x27data\x27" :=
  ⟨by decide, by decide, rfl⟩

/-- C8 amended: the handler fails with the missing-field error exactly when
the chapter or data field is absent or falsy (empty); otherwise it upserts
by chapter key, overwriting the first matching observation's data and
updated_at or appending a new record, leaving the rest of the store
unchanged. -/
theorem C8_update_observation_amended (obs : List Observation) (chapter data : Option String)
    (now : String) :
    ((update_observation obs chapter data now).2 =
        Except.error "Missing \x27chapter\x27 or \x27data\x27" ↔
      (chapter = none ∨ chapter = some "" ∨ data = none ∨ data = some "")) ∧
    (∀ c d, chapter = some c → data = some d → c ≠ "" → d ≠ "" →
      ((∀ o ∈ obs, o.chapter ≠ c) →
        update_observation obs chapter data now =
          (obs ++ [{ chapter := c, data := d, updated_at := now }],
            Except.ok "Observation data added or updated")) ∧
      ((∃ o ∈ obs, o.chapter = c) →
        ∃ pre x post, obs = pre ++ x :: post ∧ (∀ o ∈ pre, o.chapter ≠ c) ∧ x.chapter = c ∧
          update_observation obs chapter data now =
            (pre ++ { chapter := c, data := d, updated_at := now } :: post,
              Except.ok "Observation data added or updated"))) := by
  rcases chapter with _ | c
  · refine ⟨⟨fun _ => Or.inl rfl, fun _ => rfl⟩, fun c d hc => ?_⟩
    exact absurd hc (by simp)
  · rcases data with _ | d
    · refine ⟨⟨fun _ => Or.inr (Or.inr (Or.inl rfl)), fun _ => rfl⟩, fun c2 d2 _ hd => ?_⟩
      exact absurd hd (by simp)
    · by_cases hce : c = ""
      · subst hce
        constructor
        · exact ⟨fun _ => Or.inr (Or.inl rfl), fun _ => rfl⟩
        · intro c2 d2 hc2 _ hne _
          exact absurd (Option.some.inj hc2).symm hne
      · by_cases hde : d = ""
        · subst hde
          have hdecide : (update_observation obs (some c) (some "") now).2 =
              Except.error "Missing \x27chapter\x27 or \x27data\x27" := by
            simp only [update_observation]
            rw [if_pos (show (c.isEmpty || "".isEmpty) = true from
              Bool.or_eq_true_iff.mpr (Or.inr rfl))]
          constructor
          · exact ⟨fun _ => Or.inr (Or.inr (Or.inr rfl)), fun _ => hdecide⟩
          · intro c2 d2 _ hd2 _ hne
            exact absurd (Option.some.inj hd2).symm hne
        · have hcemp : c.isEmpty = false := by
            cases hq : c.isEmpty
            · rfl
            · exact absurd ((String.isEmpty_iff c).mp hq) hce
          have hdemp : d.isEmpty = false := by
            cases hq : d.isEmpty
            · rfl
            · exact absurd ((String.isEmpty_iff d).mp hq) hde
          have hsome := update_observation_some obs c d now hcemp hdemp
          have hok : (update_observation obs (some c) (some d) now).2 =
              Except.ok "Observation data added or updated" := by
            rw [hsome]
            by_cases hf : (find_one obs (fun o => o.chapter == c)).isSome = true
            · rw [if_pos hf]
            · rw [if_neg hf]
          constructor
          · constructor
            · intro hbad
              rw [hok] at hbad
              exact Except.noConfusion hbad
            · intro hor
              exfalso
              rcases hor with hbad | hbad | hbad | hbad
              · exact Option.noConfusion hbad
              · exact hce (Option.some.inj hbad)
              · exact Option.noConfusion hbad
              · exact hde (Option.some.inj hbad)
          · intro c2 d2 hc2 hd2 _ _
            have hcc : c2 = c := (Option.some.inj hc2).symm
            have hdd : d2 = d := (Option.some.inj hd2).symm
            subst hcc
            subst hdd
            constructor
            · intro hnone
              have hf : (find_one obs (fun o => o.chapter == c2)).isSome = false := by
                cases hq : find_one obs (fun o => o.chapter == c2) with
                | none => rfl
                | some x =>
                  have hx := List.find?_some hq
                  have hmem := List.mem_of_find?_eq_some hq
                  exact absurd (eq_of_beq hx) (hnone x hmem)
              rw [hsome, if_neg (by simp [hf])]
            · intro hex
              rcases update_one_observation_spec obs c2 d2 now hex with
                ⟨pre, x, post, hl, hpre, hxc, hupd⟩
              have hf : (find_one obs (fun o => o.chapter == c2)).isSome = true := by
                apply List.find?_isSome.mpr
                rcases hex with ⟨o, ho, hoc⟩
                exact ⟨o, ho, by simp [hoc]⟩
              exact ⟨pre, x, post, hl, hpre, hxc, by rw [hsome, if_pos hf, hupd]⟩

/-- Witness for the amended C8: a fresh nonempty chapter and data are
appended. -/
theorem C8_update_observation_amended_witness :
    ((update_observation [] (some "C1") (some "note") "t0").2 =
        Except.error "Missing \x27chapter\x27 or \x27data\x27" ↔
      ((some "C1" : Option String) = none ∨ (some "C1" : Option String) = some "" ∨
        (some "note" : Option String) = none ∨ (some "note" : Option String) = some "")) ∧
    update_observation [] (some "C1") (some "note") "t0" =
      ([{ chapter := "C1", data := "note", updated_at := "t0" }],
        Except.ok "Observation data added or updated") := by
  have h := C8_update_observation_amended [] (some "C1") (some "note") "t0"
  refine ⟨h.1, ?_⟩
  have h2 := (h.2 "C1" "note" rfl rfl (by decide) (by decide)).1 (by simp)
  simpa using h2

/-- One lowercase hex digit, as produced by Python bytes.hex() (codes 48-57
for 0-9, 97-102 for a-f). -/
def hexDigit (n : Nat) : Char :=
  if n < 10 then Char.ofNat (48 + n) else Char.ofNat (87 + n)

/-- The character stream of bytes.hex(): two lowercase hex digits per
byte. -/
def hexChars : List Nat → List Char
  | [] => []
  | b :: t => hexDigit (b / 16) :: hexDigit (b % 16) :: hexChars t

/-- bytes.hex() on a byte sequence (src/main.py line 305). -/
def hexEncode (l : List Nat) : String :=
  ⟨hexChars l⟩

/-- The numeric value of one hex digit character. -/
def hexVal (ch : Char) : Nat :=
  if ch.toNat < 97 then ch.toNat - 48 else ch.toNat - 87

/-- Pairwise hex parsing, as bytes.fromhex() does on well-formed input. -/
def hexPairs : List Char → List Nat
  | c1 :: c2 :: rest => (hexVal c1 * 16 + hexVal c2) :: hexPairs rest
  | _ => []

/-- bytes.fromhex() (src/main.py line 314), modelled on the well-formed
strings the handler feeds it. -/
def hexDecode (s : String) : List Nat :=
  hexPairs s.data

/-- The /send-pdf handler core (src/main.py lines 298-318): append a record
whose content is the hex encoding of the file bytes, re-decode that stored
content, dispatch it through the mail gateway, and wrap the gateway's
message in a success response.  The middle component is the byte sequence
handed to the gateway; the gateway is an abstract function from attachment
bytes and recipient to its result message. -/
def send_pdf (pdf_files : List PdfRecord) (filename : String) (file_data : List Nat)
    (email now : String) (gateway : List Nat → String → String) :
    List PdfRecord × List Nat × Except String String :=
  (pdf_files ++
      [{ filename := filename, content := hexEncode file_data, email := email,
         uploaded_at := now }],
    hexDecode (hexEncode file_data),
    Except.ok (gateway (hexDecode (hexEncode file_data)) email))

theorem hexVal_hexDigit : ∀ n < 16, hexVal (hexDigit n) = n := by decide

/-- Hex round trip: decoding the encoding of a byte sequence restores it. -/
theorem hexPairs_hexChars (l : List Nat) (h : ∀ b ∈ l, b < 256) :
    hexPairs (hexChars l) = l := by
  induction l with
  | nil => rfl
  | cons b t ih =>
    have hb : b < 256 := h b (List.mem_cons_self _ _)
    have hdiv : b / 16 < 16 := by omega
    have hmod : b % 16 < 16 := by omega
    show (hexVal (hexDigit (b / 16)) * 16 + hexVal (hexDigit (b % 16))) :: hexPairs (hexChars t)
      = b :: t
    rw [hexVal_hexDigit _ hdiv, hexVal_hexDigit _ hmod,
      ih (fun x hx => h x (List.mem_cons_of_mem _ hx))]
    congr 1
    omega

/-- C9: send-pdf appends a record holding the hex encoding of the file
bytes, dispatches exactly the original bytes (the stored encoding decodes
back to the input), and returns the gateway's message verbatim in a
success-shaped response, whatever the gateway answers. -/
theorem C9_send_pdf_roundtrip (pdf_files : List PdfRecord) (filename : String)
    (file_data : List Nat) (email now : String) (gateway : List Nat → String → String)
    (h : ∀ b ∈ file_data, b < 256) :
    send_pdf pdf_files filename file_data email now gateway =
      (pdf_files ++
          [{ filename := filename, content := hexEncode file_data, email := email,
             uploaded_at := now }],
        file_data, Except.ok (gateway file_data email)) := by
  have hrt : hexDecode (hexEncode file_data) = file_data := hexPairs_hexChars file_data h
  unfold send_pdf
  rw [hrt]

/-- Witness for C9 on the bytes of a small PDF header, with a gateway that
reports success. -/
theorem C9_send_pdf_roundtrip_witness :
    (∀ b ∈ [37, 80, 68, 70], b < 256) ∧
    send_pdf [] "doc.pdf" [37, 80, 68, 70] "a@x.com" "t0" (fun _ _ => "PDF sent successfully") =
      ([{ filename := "doc.pdf", content := hexEncode [37, 80, 68, 70], email := "a@x.com",
          uploaded_at := "t0" }],
        [37, 80, 68, 70], Except.ok "PDF sent successfully") :=
  ⟨by decide,
    C9_send_pdf_roundtrip [] "doc.pdf" [37, 80, 68, 70] "a@x.com" "t0"
      (fun _ _ => "PDF sent successfully") (by decide)⟩

/-- Decimal digit characters of a natural number, most significant first:
the rendering Python str(int) produces for the nonnegative integers the
handler formats. -/
def natStrDigits (n : Nat) : List Char :=
  if n < 10 then [Nat.digitChar n]
  else natStrDigits (n / 10) ++ [Nat.digitChar (n % 10)]
  termination_by n
  decreasing_by omega

/-- Python str(int) on a natural number. -/
def natStr (n : Nat) : String :=
  ⟨natStrDigits n⟩

theorem natStrDigits_lt (n : Nat) (h : n < 10) : natStrDigits n = [Nat.digitChar n] := by
  rw [natStrDigits, if_pos h]

theorem natStrDigits_ge (n : Nat) (h : ¬n < 10) :
    natStrDigits n = natStrDigits (n / 10) ++ [Nat.digitChar (n % 10)] := by
  rw [natStrDigits, if_neg h]

theorem natStrDigits_ne_nil (n : Nat) : natStrDigits n ≠ [] := by
  unfold natStrDigits
  by_cases h : n < 10
  · simp [h]
  · simp [h]

theorem digitChar_inj : ∀ m < 10, ∀ n < 10, Nat.digitChar m = Nat.digitChar n → m = n := by
  decide

theorem digitChar_ne_underscore : ∀ m < 10, Nat.digitChar m ≠ ('_' : Char) := by
  decide

theorem natStrDigits_no_underscore (n : Nat) : ∀ ch ∈ natStrDigits n, ch ≠ ('_' : Char) := by
  induction n using Nat.strong_induction_on with
  | _ n ih =>
    unfold natStrDigits
    by_cases h : n < 10
    · simp only [h, if_true]
      intro ch hch
      rw [List.mem_singleton.mp hch]
      exact digitChar_ne_underscore n h
    · simp only [h, if_false]
      intro ch hch
      rcases List.mem_append.mp hch with hl | hr
      · exact ih (n / 10) (by omega) ch hl
      · rw [List.mem_singleton.mp hr]
        exact digitChar_ne_underscore (n % 10) (by omega)

theorem natStrDigits_inj : ∀ m n : Nat, natStrDigits m = natStrDigits n → m = n := by
  intro m
  induction m using Nat.strong_induction_on with
  | _ m ih =>
    intro n h
    by_cases hm : m < 10 <;> by_cases hn : n < 10
    · rw [natStrDigits_lt m hm, natStrDigits_lt n hn] at h
      exact digitChar_inj m hm n hn (List.mem_singleton.mp (h ▸ List.mem_singleton_self _))
    · rw [natStrDigits_lt m hm, natStrDigits_ge n hn] at h
      have hlen := congrArg List.length h
      simp only [List.length_singleton, List.length_append] at hlen
      have : natStrDigits (n / 10) = [] := by
        cases hq : natStrDigits (n / 10) with
        | nil => rfl
        | cons a t => rw [hq] at hlen; simp at hlen
      exact absurd this (natStrDigits_ne_nil _)
    · rw [natStrDigits_ge m hm, natStrDigits_lt n hn] at h
      have hlen := congrArg List.length h
      simp only [List.length_singleton, List.length_append] at hlen
      have : natStrDigits (m / 10) = [] := by
        cases hq : natStrDigits (m / 10) with
        | nil => rfl
        | cons a t => rw [hq] at hlen; simp at hlen
      exact absurd this (natStrDigits_ne_nil _)
    · rw [natStrDigits_ge m hm, natStrDigits_ge n hn] at h
      have hrev := congrArg List.reverse h
      simp only [List.reverse_append, List.reverse_singleton, List.singleton_append] at hrev
      injection hrev with h1 h2
      have hmod : m % 10 = n % 10 := digitChar_inj _ (by omega) _ (by omega) h1
      have hdivs : natStrDigits (m / 10) = natStrDigits (n / 10) :=
        List.reverse_injective h2
      have hdiv : m / 10 = n / 10 := ih (m / 10) (by omega) (n / 10) hdivs
      omega

theorem natStr_inj (m n : Nat) (h : natStr m = natStr n) : m = n :=
  natStrDigits_inj m n (congrArg String.data h)

/-- In two equal character lists each ending in an underscore-free suffix
placed after an underscore, the suffixes agree: the part after the last
underscore is well defined. -/
theorem suffix_after_underscore {u v : List Char} (a : List Char) (b : List Char)
    (hu : ('_' : Char) ∉ u) (hv : ('_' : Char) ∉ v)
    (h : a ++ ('_' : Char) :: u = b ++ ('_' : Char) :: v) : u = v := by
  induction a generalizing b with
  | nil =>
    cases b with
    | nil => simpa using h
    | cons c bt =>
      simp only [List.nil_append, List.cons_append] at h
      injection h with h1 h2
      exfalso
      apply hu
      rw [h2]
      exact List.mem_append_right _ (List.mem_cons_self _ _)
  | cons c ta ih =>
    cases b with
    | nil =>
      simp only [List.nil_append, List.cons_append] at h
      injection h with h1 h2
      exfalso
      apply hv
      rw [← h2]
      exact List.mem_append_right _ (List.mem_cons_self _ _)
    | cons d bt =>
      simp only [List.cons_append] at h
      injection h with h1 h2
      exact ih bt h2

/-- Two synthesized bulk emails agree only when their trailing set-size
renderings agree. -/
theorem bulk_email_inj (A B : String) (m n : Nat)
    (h : "bulk_" ++ A ++ "_" ++ natStr m = "bulk_" ++ B ++ "_" ++ natStr n) : m = n := by
  have hdata := congrArg String.data h
  simp only [String.data_append, List.append_assoc, List.singleton_append] at hdata
  have hu : ('_' : Char) ∉ (natStr m).data := fun hmem =>
    natStrDigits_no_underscore m '_' hmem rfl
  have hv : ('_' : Char) ∉ (natStr n).data := fun hmem =>
    natStrDigits_no_underscore n '_' hmem rfl
  have hshape : ("bulk_".data ++ A.data) ++ ('_' : Char) :: (natStr m).data =
      ("bulk_".data ++ B.data) ++ ('_' : Char) :: (natStr n).data := by
    simpa [List.append_assoc] using hdata
  exact natStr_inj m n (String.ext (suffix_after_underscore _ _ hu hv hshape))

/-- One synthesized bulk submission (src/main.py lines 509-534): email
bulk_<timestamp>_<set-size>, name Bulk Submission <set-size + 1>, class
Bulk, the item's sequences and scalars, created_at from the write-time
clock.  k is the submission-set size read at this iteration, i the
iteration index; tsE and tsC are the two per-iteration clock readings (the
fractional-second timestamp used in the email and the isoformat value
stored in created_at). -/
def mkBulk (chapter school : String) (tsE tsC : Nat → String) (k i : Nat)
    (item : BulkItem) : QuizSubmission :=
  { email := "bulk_" ++ tsE i ++ "_" ++ natStr k
    chapter := chapter
    name := "Bulk Submission " ++ natStr (k + 1)
    school := school
    class_ := "Bulk"
    q1 := item.q1, q2 := item.q2, q3 := item.q3, q4 := item.q4, q5 := item.q5
    q6 := item.q6, q7 := item.q7, q8 := item.q8, q9 := item.q9, q10 := item.q10
    q11 := item.q11, q12 := item.q12, q13 := item.q13
    c1 := item.c1, c2 := item.c2, c3 := item.c3, c4 := item.c4, c5 := item.c5
    created_at := tsC i }

/-- The bulk-upload loop (src/main.py lines 507-536): append one synthesized
record per item, reading the growing set's size at each iteration. -/
def bulkUploadAux (subs : List QuizSubmission) (chapter school : String)
    (tsE tsC : Nat → String) (i : Nat) : List BulkItem → List QuizSubmission
  | [] => subs
  | item :: rest =>
    bulkUploadAux (subs ++ [mkBulk chapter school tsE tsC subs.length i item])
      chapter school tsE tsC (i + 1) rest

/-- The /bulk-upload handler core (src/main.py lines 502-541): run the loop
over the submissions, persist, and report the uploaded count. -/
def bulk_upload_quiz (subs : List QuizSubmission) (chapter school : String)
    (items : List BulkItem) (tsE tsC : Nat → String) : List QuizSubmission × String :=
  (bulkUploadAux subs chapter school tsE tsC 0 items,
    "Successfully uploaded " ++ natStr items.length ++ " quiz submissions")

/-- The records the loop appends when started at set size k and iteration
i. -/
def bulkRecords (chapter school : String) (tsE tsC : Nat → String) (k i : Nat) :
    List BulkItem → List QuizSubmission
  | [] => []
  | item :: rest =>
    mkBulk chapter school tsE tsC k i item ::
      bulkRecords chapter school tsE tsC (k + 1) (i + 1) rest

theorem bulkUploadAux_eq (chapter school : String) (tsE tsC : Nat → String) :
    ∀ (items : List BulkItem) (subs : List QuizSubmission) (i : Nat),
      bulkUploadAux subs chapter school tsE tsC i items =
        subs ++ bulkRecords chapter school tsE tsC subs.length i items := by
  intro items
  induction items with
  | nil =>
    intro subs i
    simp [bulkUploadAux, bulkRecords]
  | cons item rest ih =>
    intro subs i
    show bulkUploadAux (subs ++ [mkBulk chapter school tsE tsC subs.length i item])
        chapter school tsE tsC (i + 1) rest = _
    rw [ih]
    simp [bulkRecords, List.length_append, List.append_assoc]

theorem bulkRecords_length (chapter school : String) (tsE tsC : Nat → String) :
    ∀ (items : List BulkItem) (k i : Nat),
      (bulkRecords chapter school tsE tsC k i items).length = items.length := by
  intro items
  induction items with
  | nil => intro k i; rfl
  | cons item rest ih =>
    intro k i
    show (bulkRecords chapter school tsE tsC (k + 1) (i + 1) rest).length + 1 = _
    rw [ih]
    rfl

theorem bulkRecords_get? (chapter school : String) (tsE tsC : Nat → String) :
    ∀ (items : List BulkItem) (k i j : Nat),
      (bulkRecords chapter school tsE tsC k i items).get? j =
        (items.get? j).map (fun item => mkBulk chapter school tsE tsC (k + j) (i + j) item) := by
  intro items
  induction items with
  | nil => intro k i j; simp [bulkRecords]
  | cons item rest ih =>
    intro k i j
    cases j with
    | zero => simp [bulkRecords]
    | succ j2 =>
      show (bulkRecords chapter school tsE tsC (k + 1) (i + 1) rest).get? j2 = _
      rw [ih (k + 1) (i + 1) j2]
      have h1 : k + 1 + j2 = k + (j2 + 1) := by omega
      have h2 : i + 1 + j2 = i + (j2 + 1) := by omega
      rw [h1, h2]
      rfl

theorem bulkRecords_email (chapter school : String) (tsE tsC : Nat → String) :
    ∀ (items : List BulkItem) (k i : Nat) (x : QuizSubmission),
      x ∈ bulkRecords chapter school tsE tsC k i items →
        ∃ j, j < items.length ∧ x.email = "bulk_" ++ tsE (i + j) ++ "_" ++ natStr (k + j) := by
  intro items
  induction items with
  | nil =>
    intro k i x hx
    exact absurd hx (List.not_mem_nil _)
  | cons item rest ih =>
    intro k i x hx
    rcases List.mem_cons.mp hx with rfl | hx2
    · exact ⟨0, by simp, by simp [mkBulk]⟩
    · rcases ih (k + 1) (i + 1) x hx2 with ⟨j, hj, he⟩
      refine ⟨j + 1, by simpa using Nat.succ_lt_succ hj, ?_⟩
      rw [he]
      have h1 : i + 1 + j = i + (j + 1) := by omega
      have h2 : k + 1 + j = k + (j + 1) := by omega
      rw [h1, h2]

theorem bulkRecords_emails_nodup (chapter school : String) (tsE tsC : Nat → String) :
    ∀ (items : List BulkItem) (k i : Nat),
      ((bulkRecords chapter school tsE tsC k i items).map (fun s => s.email)).Nodup := by
  intro items
  induction items with
  | nil => intro k i; simp [bulkRecords]
  | cons item rest ih =>
    intro k i
    show (("bulk_" ++ tsE i ++ "_" ++ natStr k) ::
      (bulkRecords chapter school tsE tsC (k + 1) (i + 1) rest).map (fun s => s.email)).Nodup
    rw [List.nodup_cons]
    constructor
    · intro hmem
      rcases List.mem_map.mp hmem with ⟨x, hx, hex⟩
      rcases bulkRecords_email chapter school tsE tsC rest (k + 1) (i + 1) x hx with ⟨j, hj, hej⟩
      rw [hej] at hex
      have := bulk_email_inj _ _ _ _ hex
      omega
    · exact ih (k + 1) (i + 1)

/-- C7: bulk upload of N items grows the submission set by exactly N,
leaves the existing records in place, appends at position j the synthesized
record for item j (email bulk_<timestamp>_<set-size>, name placeholder,
class Bulk, the item's fields), the appended emails are pairwise distinct,
and the returned message reports the count N. -/
theorem C7_bulk_upload (subs : List QuizSubmission) (chapter school : String)
    (items : List BulkItem) (tsE tsC : Nat → String) :
    (bulk_upload_quiz subs chapter school items tsE tsC).1.length =
      subs.length + items.length ∧
    (bulk_upload_quiz subs chapter school items tsE tsC).1.take subs.length = subs ∧
    (∀ j, ((bulk_upload_quiz subs chapter school items tsE tsC).1.drop subs.length).get? j =
      (items.get? j).map (fun item => mkBulk chapter school tsE tsC (subs.length + j) j item)) ∧
    (((bulk_upload_quiz subs chapter school items tsE tsC).1.drop subs.length).map
      (fun s => s.email)).Nodup ∧
    (bulk_upload_quiz subs chapter school items tsE tsC).2 =
      "Successfully uploaded " ++ natStr items.length ++ " quiz submissions" := by
  have heq : (bulk_upload_quiz subs chapter school items tsE tsC).1 =
      subs ++ bulkRecords chapter school tsE tsC subs.length 0 items :=
    bulkUploadAux_eq chapter school tsE tsC items subs 0
  rw [heq]
  refine ⟨?_, List.take_left subs _, ?_, ?_, rfl⟩
  · rw [List.length_append, bulkRecords_length]
  · intro j
    rw [List.drop_left, bulkRecords_get? chapter school tsE tsC items subs.length 0 j]
    have h0 : (0 : Nat) + j = j := by omega
    rw [h0]
  · rw [List.drop_left]
    exact bulkRecords_emails_nodup chapter school tsE tsC items subs.length 0

/-- A sample bulk item and clock for the witness. -/
def exItem : BulkItem :=
  { q1 := [1, 1], q2 := [], q3 := [], q4 := [], q5 := [], q6 := [], q7 := []
    q8 := [], q9 := [], q10 := [], q11 := [], q12 := [], q13 := []
    c1 := 0, c2 := 0, c3 := 0, c4 := 0, c5 := 0 }

def exTs : Nat → String := fun _ => "1718000000.25"

/-- Witness for C7: two items bulk-uploaded onto the two example submissions
give four records, distinct fresh emails, and the first appended record is
the synthesized one for set size 2. -/
theorem C7_bulk_upload_witness :
    (bulk_upload_quiz exSubs "C2" "S" [exItem, exItem] exTs exTs).1.length = 2 + 2 ∧
    (((bulk_upload_quiz exSubs "C2" "S" [exItem, exItem] exTs exTs).1.drop 2).map
      (fun s => s.email)).Nodup ∧
    ((bulk_upload_quiz exSubs "C2" "S" [exItem, exItem] exTs exTs).1.drop 2).get? 0 =
      some (mkBulk "C2" "S" exTs exTs 2 0 exItem) ∧
    (bulk_upload_quiz exSubs "C2" "S" [exItem, exItem] exTs exTs).2 =
      "Successfully uploaded " ++ natStr 2 ++ " quiz submissions" := by
  have h := C7_bulk_upload exSubs "C2" "S" [exItem, exItem] exTs exTs
  exact ⟨h.1, h.2.2.2.1, h.2.2.1 0, h.2.2.2.2⟩
